import Mathlib

/-!
Verification development for the event-publishing and reminder-firing
pipeline of the todo-events backend.

The definitions below are a shallow embedding of:
  * backend/app/events/schemas.py   (CloudEvent envelope and payload models)
  * backend/app/events/publisher.py (EventPublisher with tenacity retry)
  * backend/app/workers/reminder_worker.py (ReminderWorker polling cycle)

Time values (datetimes) are modelled as natural numbers, UUIDs as natural
numbers, and the database table of reminders as a list of records.
-/

namespace TodoEvents

/-! ### Event payload model (schemas.py, TaskReminderFiredData) -/

/-- Payload of a reminder.fired event produced by the worker
(schemas.py, class TaskReminderFiredData). UUIDs are modelled as Nat,
datetimes as Nat. -/
structure TaskReminderFiredData where
  reminder_id : Nat
  task_id : Int
  user_id : Int
  fired_at : Nat
  scheduled_time : Nat
  notification_channels : List String
deriving DecidableEq

/-- Pydantic validation failure. -/
inductive ValidationError where
  | missingField (name : String)
deriving DecidableEq

/-- Pydantic-style construction of TaskReminderFiredData. The fields
reminder_id, task_id, user_id, fired_at and scheduled_time are required
(no default in the source); notification_channels has the declared default
value of a one-element email list. The source declares no constraint on the
length of notification_channels. -/
def TaskReminderFiredData.validate
    (reminder_id : Option Nat) (task_id : Option Int) (user_id : Option Int)
    (fired_at : Option Nat) (scheduled_time : Option Nat)
    (notification_channels : Option (List String)) :
    Except ValidationError TaskReminderFiredData :=
  match reminder_id with
  | none => .error (.missingField "reminder_id")
  | some rid =>
    match task_id with
    | none => .error (.missingField "task_id")
    | some tid =>
      match user_id with
      | none => .error (.missingField "user_id")
      | some uid =>
        match fired_at with
        | none => .error (.missingField "fired_at")
        | some fat =>
          match scheduled_time with
          | none => .error (.missingField "scheduled_time")
          | some st =>
            .ok { reminder_id := rid, task_id := tid, user_id := uid,
                  fired_at := fat, scheduled_time := st,
                  notification_channels := notification_channels.getD ["email"] }

/-! ### CloudEvent envelope (schemas.py, class CloudEvent) -/

/-- CloudEvents v1.0 envelope (schemas.py, class CloudEvent), with the
payload specialised to the worker's TaskReminderFiredData. The id is a
modelled UUID, the time a modelled datetime. -/
structure CloudEvent where
  id : Nat
  source : String
  specversion : String
  type : String
  datacontenttype : String
  dataschema : Option String
  subject : Option String
  time : Nat
  data : TaskReminderFiredData
deriving DecidableEq

/-- Construction of a CloudEvent with pydantic defaults: when id or time is
not supplied, the default factory values (a fresh uuid4, the current utc
time) are used; specversion defaults to the fixed string 1.0 and
datacontenttype to application/json. genId and genTime stand for the values
the default factories would produce at construction time. -/
def CloudEvent.make (genId genTime : Nat) (id : Option Nat) (source : String)
    (ty : String) (subject : Option String) (time : Option Nat)
    (data : TaskReminderFiredData) : CloudEvent :=
  { id := id.getD genId
    source := source
    specversion := "1.0"
    type := ty
    datacontenttype := "application/json"
    dataschema := none
    subject := subject
    time := time.getD genTime
    data := data }

/-! ### Publisher transport model (publisher.py) -/

/-- Outcome of one raw HTTP transport invocation inside _publish_event:
success, a response with a non-2xx status code (raise_for_status raises
httpx.HTTPStatusError), a network error (httpx.RequestError), or a timeout
(httpx.TimeoutException). -/
inductive TransportResult where
  | ok
  | httpStatus (code : Nat)
  | netErr
  | timeoutErr
deriving DecidableEq

/-- Exception escaping one attempt of the body of _publish_event:
EventPublisherError (raised for non-2xx responses and unexpected errors) or
a re-raised httpx request error / timeout. The Nat detail of
eventPublisherError records the HTTP status code it reports. -/
inductive PubExc where
  | eventPublisherError (detail : Nat)
  | requestError
  | timeoutExc
deriving DecidableEq

/-- The tenacity retry predicate of the decorator on _publish_event:
retry_if_exception_type((httpx.HTTPError, httpx.TimeoutException)).
EventPublisherError is not an httpx error, so it is not retried. -/
def PubExc.retryable : PubExc → Bool
  | .eventPublisherError _ => false
  | .requestError => true
  | .timeoutExc => true

/-- One attempt of the try/except body of _publish_event (publisher.py,
lines 171-227): a 2xx response returns True; httpx.HTTPStatusError is
wrapped into EventPublisherError carrying the status code;
httpx.TimeoutException and httpx.RequestError are re-raised for the retry
mechanism. -/
def attemptOnce : TransportResult → Except PubExc Bool
  | .ok => .ok true
  | .httpStatus code => .error (.eventPublisherError code)
  | .netErr => .error .requestError
  | .timeoutErr => .error .timeoutExc

/-- Backoff wait after a failed attempt, per tenacity
wait_exponential(multiplier=1, min=1, max=10): multiplier * 2 ^ (attempt - 1)
clamped between min and max. -/
def waitExp (attempt : Nat) : Nat :=
  max 1 (min (2 ^ (attempt - 1)) 10)

/-- Final failure of a publish call: either an exception raised through
(non-retryable, re-raised by tenacity after the failing attempt), or a
tenacity RetryError wrapping the exception of the last attempt after
stop_after_attempt exhaustion. -/
inductive FinalErr where
  | raised (e : PubExc)
  | retryError (last : PubExc)
deriving DecidableEq

/-- The HTTP request of one attempt: topic addressed, serialized envelope
body (model_dump of the full event), and the Ce-Id / Ce-Source / Ce-Type /
Ce-Specversion headers mirrored from the envelope. -/
structure PublishRequest where
  topic : String
  body : CloudEvent
  ceId : Nat
  ceSource : String
  ceType : String
  ceSpecversion : String
deriving DecidableEq

/-- Request built by one attempt of _publish_event for a given event and
topic. -/
def mkRequest (topic : String) (e : CloudEvent) : PublishRequest :=
  { topic := topic, body := e, ceId := e.id, ceSource := e.source,
    ceType := e.type, ceSpecversion := e.specversion }

instance {ε α : Type} [DecidableEq ε] [DecidableEq α] :
    DecidableEq (Except ε α) := fun x y =>
  match x, y with
  | .ok a, .ok b =>
    if h : a = b then .isTrue (by rw [h])
    else .isFalse (by intro hh; cases hh; exact h rfl)
  | .error a, .error b =>
    if h : a = b then .isTrue (by rw [h])
    else .isFalse (by intro hh; cases hh; exact h rfl)
  | .ok _, .error _ => .isFalse (by intro hh; cases hh)
  | .error _, .ok _ => .isFalse (by intro hh; cases hh)

/-- Observable outcome of one call to _publish_event: final result, number
of transport invocations, the backoff waits slept between attempts, and the
requests sent. -/
structure PublishOutcome where
  result : Except FinalErr Bool
  invocations : Nat
  waits : List Nat
  requests : List PublishRequest
deriving DecidableEq

/-- The tenacity-driven attempt loop of _publish_event with publishing
enabled. attempt is the 1-based number of the current attempt, retriesLeft
the number of further attempts stop_after_attempt still allows. On a
retryable failure with retries left, the loop sleeps waitExp attempt and
retries; with none left it fails with a RetryError wrapping the last
exception; a non-retryable exception is raised through immediately. -/
def publishLoop (topic : String) (e : CloudEvent)
    (transport : Nat → TransportResult) :
    Nat → Nat → List Nat → List PublishRequest → PublishOutcome
  | attempt, retriesLeft, waits, reqs =>
    let reqs' := reqs ++ [mkRequest topic e]
    match attemptOnce (transport attempt), retriesLeft with
    | .ok b, _ => ⟨.ok b, attempt, waits, reqs'⟩
    | .error ex, 0 =>
      if ex.retryable then ⟨.error (.retryError ex), attempt, waits, reqs'⟩
      else ⟨.error (.raised ex), attempt, waits, reqs'⟩
    | .error ex, retries + 1 =>
      if ex.retryable then
        publishLoop topic e transport (attempt + 1) retries
          (waits ++ [waitExp attempt]) reqs'
      else ⟨.error (.raised ex), attempt, waits, reqs'⟩

/-- One call to _publish_event. With publishing disabled it is a no-op that
returns True with zero transport invocations; with it enabled, the
decorator stop_after_attempt(3) allows 3 total attempts (1 initial plus 2
retries). -/
def publishEvent (enabled : Bool) (topic : String) (e : CloudEvent)
    (transport : Nat → TransportResult) : PublishOutcome :=
  if enabled then publishLoop topic e transport 1 2 [] []
  else ⟨.ok true, 0, [], []⟩

/-! ### Topic resolution (publisher.py, _get_topic_for_event_type) -/

def TASK_EVENTS_TOPIC : String := "task-events"
def REMINDER_EVENTS_TOPIC : String := "reminder-events"
def NOTIFICATION_EVENTS_TOPIC : String := "notification-events"

/-- Python str.startswith, on the character lists of the strings. -/
def strStartsWith (s p : String) : Bool :=
  p.data.isPrefixOf s.data

/-- Topic resolution of _get_topic_for_event_type: three startswith tests
against the dotted taxonomy roots, with an explicit warning-and-default
fallback to the task events topic. -/
def getTopicForEventType (event_type : String) : String :=
  if strStartsWith event_type "task." then TASK_EVENTS_TOPIC
  else if strStartsWith event_type "reminder." then REMINDER_EVENTS_TOPIC
  else if strStartsWith event_type "notification." then NOTIFICATION_EVENTS_TOPIC
  else TASK_EVENTS_TOPIC

/-- Modelled from the spec: topic resolution as the specification words it,
keyed on the portion of the type string before the first dot. Used only to
compare the specification reading with getTopicForEventType. -/
def specTopicOfType (event_type : String) : String :=
  let p := event_type.data.takeWhile (fun c => decide (c ≠ '.'))
  if p = "task".data then TASK_EVENTS_TOPIC
  else if p = "reminder".data then REMINDER_EVENTS_TOPIC
  else if p = "notification".data then NOTIFICATION_EVENTS_TOPIC
  else TASK_EVENTS_TOPIC

/-- The generic publish method: with no explicit topic, the topic is
auto-detected from the event type, then _publish_event is called. -/
def publishTop (enabled : Bool) (e : CloudEvent) (topic : Option String)
    (transport : Nat → TransportResult) : PublishOutcome :=
  publishEvent enabled (topic.getD (getTopicForEventType e.type)) e transport

/-! ### Reminder worker model (reminder_worker.py) -/

/-- Reminder status values stored in the status column. -/
inductive RStatus where
  | pending
  | fired
  | cancelled
deriving DecidableEq

/-- Row of the reminders table (app.models.Reminder as used by the worker).
UUID columns and datetimes are modelled as Nat; notification_channels as
its extracted channel list. -/
structure Reminder where
  id : Nat
  task_id : Nat
  user_id : Nat
  scheduled_time : Nat
  status : RStatus
  fired_at : Option Nat
  notification_channels : List String
deriving DecidableEq

/-- The WHERE clause of the due-reminder query: status equals pending and
scheduled_time is at most the current time. -/
def isDue (now : Nat) (r : Reminder) : Bool :=
  decide (r.status = RStatus.pending) && decide (r.scheduled_time ≤ now)

/-- Comparison used by ORDER BY scheduled_time ASC. -/
def remLe (a b : Reminder) : Prop :=
  a.scheduled_time ≤ b.scheduled_time

instance : DecidableRel remLe := fun a b => Nat.decLe a.scheduled_time b.scheduled_time

instance : IsTotal Reminder remLe := ⟨fun a b => Nat.le_total a.scheduled_time b.scheduled_time⟩

instance : IsTrans Reminder remLe := ⟨fun _ _ _ => Nat.le_trans⟩

/-- The due-reminder query of process_due_reminders (reminder_worker.py,
lines 96-103): filter by status pending and scheduled_time at most now,
order ascending by scheduled_time, limit to the batch size. -/
def selectDue (db : List Reminder) (now batch : Nat) : List Reminder :=
  (List.insertionSort remLe (db.filter (isDue now))).take batch

/-- The per-reminder status transition: status set to fired and fired_at
set to the firing time. -/
def fireR (r : Reminder) (t : Nat) : Reminder :=
  { r with status := RStatus.fired, fired_at := some t }

/-- The _publish_reminder_fired wrapper (reminder_worker.py, lines
150-188): the publish call's outcome, success or any raised error, is
absorbed by the try/except and never re-raised. -/
def publishReminderFiredE (pubResult : Except FinalErr Bool) : Except FinalErr Unit :=
  match pubResult with
  | .ok _ => .ok ()
  | .error _ => .ok ()

/-- The body of the per-reminder loop of process_due_reminders: publish
(best-effort), then update status and commit. A raised error anywhere in
the body yields Except.error, handled by rollback in the caller; commitOk
tells whether session.commit succeeds for the given reminder id, pub gives
the publisher outcome for the given reminder id. -/
def processOne (now : Nat) (pub : Nat → Except FinalErr Bool)
    (commitOk : Nat → Bool) (r : Reminder) : Except Unit Reminder :=
  match publishReminderFiredE (pub r.id) with
  | .error _ => .error ()
  | .ok _ => if commitOk r.id then .ok (fireR r now) else .error ()

/-- Folding the per-reminder loop over the selected batch, accumulating the
ids of the committed rows, the processed count and the failed count. -/
def processList (now : Nat) (pub : Nat → Except FinalErr Bool)
    (commitOk : Nat → Bool) : List Reminder → List Nat × Nat × Nat
  | [] => ([], 0, 0)
  | r :: rs =>
    let rest := processList now pub commitOk rs
    match processOne now pub commitOk r with
    | .ok _ => (r.id :: rest.1, rest.2.1 + 1, rest.2.2)
    | .error _ => (rest.1, rest.2.1, rest.2.2 + 1)

/-- Observable result of one cycle: the table contents after the cycle, the
processed count returned by process_due_reminders, and the logged failed
count. -/
structure CycleResult where
  db : List Reminder
  processed : Nat
  failed : Nat
deriving DecidableEq

/-- One cycle of process_due_reminders: query the due batch, process each
selected reminder, and commit the status transition row by row. Rows whose
commit succeeded are replaced by their fired version; every other row is
left as it was. -/
def runCycle (db : List Reminder) (now batch : Nat)
    (pub : Nat → Except FinalErr Bool) (commitOk : Nat → Bool) : CycleResult :=
  let sel := selectDue db now batch
  let res := processList now pub commitOk sel
  { db := db.map (fun r => if r.id ∈ res.1 then fireR r now else r)
    processed := res.2.1
    failed := res.2.2 }

/-- Environment of the worker run loop, indexed by cycle number: whether a
shutdown signal arrives during the cycle, whether the whole-cycle query
succeeds, the clock, and the per-reminder publish and commit outcomes. -/
structure WEnv where
  batch : Nat
  stop : Nat → Bool
  queryOk : Nat → Bool
  nowAt : Nat → Nat
  pub : Nat → Nat → Except FinalErr Bool
  commitOk : Nat → Nat → Bool

/-- State of the worker loop: the running flag and the reminders table. -/
structure WState where
  running : Bool
  db : List Reminder
deriving DecidableEq

/-- One iteration of the while loop of ReminderWorker.run (reminder_worker
lines 211-231): if the worker is running, process_due_reminders runs; a
whole-cycle query failure is caught and leaves the table unchanged; then a
stop request observed during the iteration clears the running flag. -/
def loopIter (env : WEnv) (k : Nat) (s : WState) : WState :=
  if s.running then
    { running := !env.stop k
      db := if env.queryOk k then
              (runCycle s.db (env.nowAt k) env.batch (env.pub k) (env.commitOk k)).db
            else s.db }
  else s

/-- Worker state after k iterations of the run loop, started with the
running flag set (run sets self._running = True on entry). -/
def wstates (env : WEnv) (db0 : List Reminder) : Nat → WState
  | 0 => ⟨true, db0⟩
  | k + 1 => loopIter env k (wstates env db0 k)

/-! ### Basic lemmas about the worker cycle -/

theorem publishReminderFiredE_ok (res : Except FinalErr Bool) :
    publishReminderFiredE res = .ok () := by
  cases res <;> rfl

theorem processOne_eq (now : Nat) (pub : Nat → Except FinalErr Bool)
    (commitOk : Nat → Bool) (r : Reminder) :
    processOne now pub commitOk r =
      if commitOk r.id then .ok (fireR r now) else .error () := by
  unfold processOne
  rw [publishReminderFiredE_ok]

theorem processList_eq (now : Nat) (pub : Nat → Except FinalErr Bool)
    (commitOk : Nat → Bool) (l : List Reminder) :
    processList now pub commitOk l =
      ((l.filter (fun r => commitOk r.id)).map (fun r => r.id),
       (l.filter (fun r => commitOk r.id)).length,
       (l.filter (fun r => !commitOk r.id)).length) := by
  induction l with
  | nil => rfl
  | cons r rs ih =>
    unfold processList
    rw [ih, processOne_eq]
    by_cases h : commitOk r.id = true
    · simp [h, List.filter_cons]
    · simp [Bool.not_eq_true] at h
      simp [h, List.filter_cons]

/-- Ids of the rows whose commit succeeded in the cycle over the selected
batch. -/
def firedIds (db : List Reminder) (now batch : Nat) (commitOk : Nat → Bool) : List Nat :=
  ((selectDue db now batch).filter (fun r => commitOk r.id)).map (fun r => r.id)

theorem runCycle_eq (db : List Reminder) (now batch : Nat)
    (pub : Nat → Except FinalErr Bool) (commitOk : Nat → Bool) :
    runCycle db now batch pub commitOk =
      { db := db.map (fun r =>
          if r.id ∈ firedIds db now batch commitOk then fireR r now else r)
        processed := ((selectDue db now batch).filter (fun r => commitOk r.id)).length
        failed := ((selectDue db now batch).filter (fun r => !commitOk r.id)).length } := by
  simp only [runCycle, firedIds]
  rw [processList_eq]

@[simp] theorem fireR_id (r : Reminder) (t : Nat) : (fireR r t).id = r.id := rfl

theorem isDue_iff (now : Nat) (r : Reminder) :
    isDue now r = true ↔ r.status = RStatus.pending ∧ r.scheduled_time ≤ now := by
  simp [isDue]

theorem mem_of_mem_selectDue {db : List Reminder} {now batch : Nat} {r : Reminder}
    (h : r ∈ selectDue db now batch) : r ∈ db ∧ isDue now r = true := by
  have h1 : r ∈ List.insertionSort remLe (db.filter (isDue now)) :=
    List.take_subset batch _ h
  have h2 : r ∈ db.filter (isDue now) :=
    (List.perm_insertionSort remLe _).mem_iff.mp h1
  exact ⟨(List.mem_filter.mp h2).1, (List.mem_filter.mp h2).2⟩

theorem mem_firedIds {db : List Reminder} {now batch : Nat} {commitOk : Nat → Bool}
    {i : Nat} (h : i ∈ firedIds db now batch commitOk) :
    ∃ x ∈ selectDue db now batch, x.id = i ∧ commitOk i = true ∧ isDue now x = true := by
  unfold firedIds at h
  obtain ⟨x, hx, hxi⟩ := List.mem_map.mp h
  obtain ⟨hxSel, hxC⟩ := List.mem_filter.mp hx
  exact ⟨x, hxSel, hxi, by rw [← hxi]; exact hxC, (mem_of_mem_selectDue hxSel).2⟩

/-- A row that does not satisfy the due predicate is left unchanged by the
cycle and no other row takes over its id, provided ids are unique. -/
theorem notDue_untouched {db : List Reminder} {now batch : Nat}
    {pub : Nat → Except FinalErr Bool} {commitOk : Nat → Bool} {r : Reminder}
    (hnd : (db.map (fun x => x.id)).Nodup) (hr : r ∈ db)
    (hdue : isDue now r = false) :
    r ∈ (runCycle db now batch pub commitOk).db ∧
      ∀ r' ∈ (runCycle db now batch pub commitOk).db, r'.id = r.id → r' = r := by
  have hinj := List.inj_on_of_nodup_map hnd
  have hidnot : r.id ∉ firedIds db now batch commitOk := by
    intro hmem
    obtain ⟨x, hxSel, hxi, _, hxDue⟩ := mem_firedIds hmem
    have hx : x = r := hinj (mem_of_mem_selectDue hxSel).1 hr hxi
    rw [hx] at hxDue
    rw [hxDue] at hdue
    exact Bool.true_eq_false.mp hdue
  rw [runCycle_eq]
  constructor
  · have heq : (fun x => if x.id ∈ firedIds db now batch commitOk then fireR x now else x) r = r := by
      simp [hidnot]
    have hmem := List.mem_map_of_mem
      (fun x => if x.id ∈ firedIds db now batch commitOk then fireR x now else x) hr
    rw [heq] at hmem
    exact hmem
  · intro r' hr' hid
    obtain ⟨x, hx, hxr⟩ := List.mem_map.mp hr'
    have hxid : x.id = r.id := by
      by_cases hc : x.id ∈ firedIds db now batch commitOk
      · rw [← hid, ← hxr]; simp [hc]
      · rw [← hid, ← hxr]; simp [hc]
    have hxr2 : x = r := hinj hx hr hxid
    rw [hxr2] at hxr
    rw [← hxr]
    simp [hidnot]

/-- The map of a cycle preserves the id column of every row, hence the id
list of the table. -/
theorem runCycle_ids (db : List Reminder) (now batch : Nat)
    (pub : Nat → Except FinalErr Bool) (commitOk : Nat → Bool) :
    ((runCycle db now batch pub commitOk).db).map (fun x => x.id) =
      db.map (fun x => x.id) := by
  rw [runCycle_eq]
  simp only [List.map_map]
  apply List.map_congr_left
  intro x _
  by_cases hc : x.id ∈ firedIds db now batch commitOk <;> simp [hc]

/-! ### Sample data used by concrete statements -/

/-- A well-formed reminder.fired payload. -/
def sampleData : TaskReminderFiredData :=
  { reminder_id := 1, task_id := 2, user_id := 3, fired_at := 100,
    scheduled_time := 90, notification_channels := ["email"] }

/-- A reminder.fired envelope as the worker builds it. -/
def sampleEvent : CloudEvent :=
  CloudEvent.make 7 100 none "/workers/reminder-worker" "reminder.fired"
    (some "reminder/1") none sampleData

/-- Boolean success discriminator on Except. -/
def isOkE {ε α : Type} : Except ε α → Bool
  | .ok _ => true
  | .error _ => false

/-- True when a publish outcome ended by raising EventPublisherError. -/
def raisedPublisherError (o : PublishOutcome) : Bool :=
  match o.result with
  | .error (.raised (.eventPublisherError _)) => true
  | _ => false

/-- Transport failures the tenacity predicate classifies as retryable. -/
def isTransient : TransportResult → Bool
  | .netErr => true
  | .timeoutErr => true
  | _ => false

/-! ### C4: reminder.fired payload validation -/

/-- Claim C4, counterexample: constructing a reminder.fired payload with an
explicitly empty channel list succeeds, contradicting the claim that
construction with an empty channel list fails with a ValidationError. -/
theorem empty_channels_accepted_cex :
    TaskReminderFiredData.validate (some 1) (some 2) (some 3) (some 100) (some 90)
      (some []) =
      .ok { reminder_id := 1, task_id := 2, user_id := 3, fired_at := 100,
            scheduled_time := 90, notification_channels := [] } := rfl

/-- Claim C4 (amended): construction of a reminder.fired payload fails with
a ValidationError exactly when one of reminder id, task reference, user
reference, fired-at or originally-scheduled time is missing; the channel
list is optional, defaults to a single email channel, and any supplied
list, including the empty one, is accepted unchanged. -/
theorem payload_required_fields (rid : Option Nat) (tid uid : Option Int)
    (fat st : Option Nat) (nc : Option (List String)) :
    (isOkE (TaskReminderFiredData.validate rid tid uid fat st nc) =
      (rid.isSome && tid.isSome && uid.isSome && fat.isSome && st.isSome)) ∧
    (∀ (a : Nat) (b c : Int) (d e : Nat),
      TaskReminderFiredData.validate (some a) (some b) (some c) (some d) (some e) nc =
        .ok { reminder_id := a, task_id := b, user_id := c, fired_at := d,
              scheduled_time := e, notification_channels := nc.getD ["email"] }) := by
  constructor
  · cases rid <;> cases tid <;> cases uid <;> cases fat <;> cases st <;>
      simp [TaskReminderFiredData.validate, isOkE]
  · intro a b c d e
    rfl

/-! ### C2: retry classification and backoff -/

/-- Claim C2, counterexample: a non-2xx HTTP response is not retried. The
HTTPStatusError is wrapped into EventPublisherError, which the tenacity
predicate does not retry, so the call fails after exactly one transport
invocation with no backoff wait, contradicting the claimed 3 attempts with
backoff for non-2xx failures. -/
theorem non2xx_not_retried_cex :
    (publishEvent true "reminder-events" sampleEvent
      (fun _ => TransportResult.httpStatus 500)).invocations = 1 ∧
    (publishEvent true "reminder-events" sampleEvent
      (fun _ => TransportResult.httpStatus 500)).waits = [] ∧
    (publishEvent true "reminder-events" sampleEvent
      (fun _ => TransportResult.httpStatus 500)).result =
      .error (.raised (.eventPublisherError 500)) :=
  ⟨rfl, rfl, rfl⟩

/-- Claim C2 (amended): for the failures the code actually retries, network
errors and timeouts, publish with publishing enabled uses exponential
backoff starting at one time-unit, doubling and capped at ten, with at most
3 total attempts: a transport failing transiently twice and then succeeding
yields success after exactly 3 invocations with backoff waits 1 and 2. A
non-2xx HTTP response, by contrast, raises EventPublisherError after a
single attempt and is never retried. -/
theorem transient_retry_policy (topic : String) (e : CloudEvent)
    (t : Nat → TransportResult)
    (h1 : isTransient (t 1) = true) (h2 : isTransient (t 2) = true)
    (h3 : t 3 = TransportResult.ok) :
    (publishEvent true topic e t).result = .ok true ∧
    (publishEvent true topic e t).invocations = 3 ∧
    (publishEvent true topic e t).waits = [1, 2] ∧
    waitExp 1 = 1 ∧
    (∀ a, 1 ≤ a → waitExp (a + 1) = min (2 * waitExp a) 10) ∧
    (∀ a, waitExp a ≤ 10) ∧
    (∀ (t' : Nat → TransportResult) (c : Nat), t' 1 = TransportResult.httpStatus c →
      (publishEvent true topic e t').invocations = 1 ∧
      (publishEvent true topic e t').waits = [] ∧
      (publishEvent true topic e t').result = .error (.raised (.eventPublisherError c))) := by
  have hw1 : waitExp 1 = 1 := rfl
  have hw2 : waitExp 2 = 2 := rfl
  refine ⟨?_, ?_, ?_, hw1, ?_, ?_, ?_⟩
  · cases ht1 : t 1 <;> rw [ht1] at h1 <;> simp [isTransient] at h1 <;>
      cases ht2 : t 2 <;> rw [ht2] at h2 <;> simp [isTransient] at h2 <;>
      simp [publishEvent, publishLoop, attemptOnce, ht1, ht2, h3, PubExc.retryable]
  · cases ht1 : t 1 <;> rw [ht1] at h1 <;> simp [isTransient] at h1 <;>
      cases ht2 : t 2 <;> rw [ht2] at h2 <;> simp [isTransient] at h2 <;>
      simp [publishEvent, publishLoop, attemptOnce, ht1, ht2, h3, PubExc.retryable]
  · cases ht1 : t 1 <;> rw [ht1] at h1 <;> simp [isTransient] at h1 <;>
      cases ht2 : t 2 <;> rw [ht2] at h2 <;> simp [isTransient] at h2 <;>
      simp [publishEvent, publishLoop, attemptOnce, ht1, ht2, h3, PubExc.retryable,
        hw1, hw2]
  · intro a ha
    unfold waitExp
    have h2a : 1 ≤ 2 ^ (a - 1) := Nat.one_le_two_pow
    have h2b : 1 ≤ 2 ^ (a + 1 - 1) := Nat.one_le_two_pow
    have hpow : 2 ^ (a + 1 - 1) = 2 * 2 ^ (a - 1) := by
      rw [Nat.add_sub_cancel]
      conv_lhs => rw [← Nat.succ_pred_eq_of_pos ha]
      rw [Nat.pow_succ, Nat.mul_comm, Nat.pred_eq_sub_one]
    rw [hpow]
    omega
  · intro a
    unfold waitExp
    omega
  · intro t' c ht'
    refine ⟨?_, ?_, ?_⟩ <;>
      simp [publishEvent, publishLoop, attemptOnce, ht', PubExc.retryable]

/-- Concrete transport for the C2 witness: transient failures on the first
two attempts, success on the third. -/
def twiceFailTransport : Nat → TransportResult :=
  fun i => if i = 3 then .ok else .netErr

/-- Witness for the amended C2 at a concrete transport. -/
theorem transient_retry_policy_witness :
    (isTransient (twiceFailTransport 1) = true ∧
     isTransient (twiceFailTransport 2) = true ∧
     twiceFailTransport 3 = TransportResult.ok) ∧
    ((publishEvent true "reminder-events" sampleEvent twiceFailTransport).result = .ok true ∧
     (publishEvent true "reminder-events" sampleEvent twiceFailTransport).invocations = 3 ∧
     (publishEvent true "reminder-events" sampleEvent twiceFailTransport).waits = [1, 2] ∧
     waitExp 1 = 1 ∧
     (∀ a, 1 ≤ a → waitExp (a + 1) = min (2 * waitExp a) 10) ∧
     (∀ a, waitExp a ≤ 10) ∧
     (∀ (t' : Nat → TransportResult) (c : Nat), t' 1 = TransportResult.httpStatus c →
       (publishEvent true "reminder-events" sampleEvent t').invocations = 1 ∧
       (publishEvent true "reminder-events" sampleEvent t').waits = [] ∧
       (publishEvent true "reminder-events" sampleEvent t').result =
         .error (.raised (.eventPublisherError c)))) :=
  ⟨⟨rfl, rfl, rfl⟩,
   transient_retry_policy "reminder-events" sampleEvent twiceFailTransport rfl rfl rfl⟩

/-! ### C3: behaviour after retry exhaustion -/

/-- Claim C3, counterexample: with a transport that always fails with a
network error, publish does make exactly 3 attempts, but the final failure
is a tenacity RetryError wrapping the last httpx exception, not an
EventPublisherError: the decorator has no reraise flag, so exhaustion never
raises the EventPublisherError classification the claim requires. -/
theorem exhaustion_not_publisher_error_cex :
    (publishEvent true "reminder-events" sampleEvent
      (fun _ => TransportResult.netErr)).invocations = 3 ∧
    (publishEvent true "reminder-events" sampleEvent
      (fun _ => TransportResult.netErr)).result =
      .error (.retryError .requestError) ∧
    raisedPublisherError
      (publishEvent true "reminder-events" sampleEvent
        (fun _ => TransportResult.netErr)) = false :=
  ⟨rfl, rfl, rfl⟩

/-- Claim C3 (amended): with a transport whose failures are all transient
(network errors or timeouts), publish with publishing enabled makes exactly
3 attempts and no more, then fails with a tenacity RetryError wrapping the
exception of the last attempt; a transport answering with a non-2xx
response instead fails after exactly one attempt, raising
EventPublisherError with the status detail. -/
theorem always_failing_transport_attempts (topic : String) (e : CloudEvent)
    (t : Nat → TransportResult) (h : ∀ i, isTransient (t i) = true) :
    (publishEvent true topic e t).invocations = 3 ∧
    (publishEvent true topic e t).waits = [1, 2] ∧
    (∃ last, attemptOnce (t 3) = .error last ∧
      (publishEvent true topic e t).result = .error (.retryError last)) ∧
    (∀ (t' : Nat → TransportResult) (c : Nat), t' 1 = TransportResult.httpStatus c →
      (publishEvent true topic e t').invocations = 1 ∧
      (publishEvent true topic e t').result =
        .error (.raised (.eventPublisherError c))) := by
  have h1 := h 1
  have h2 := h 2
  have h3 := h 3
  have hw1 : waitExp 1 = 1 := rfl
  have hw2 : waitExp 2 = 2 := rfl
  refine ⟨?_, ?_, ?_, ?_⟩
  · cases ht1 : t 1 <;> rw [ht1] at h1 <;> simp [isTransient] at h1 <;>
      cases ht2 : t 2 <;> rw [ht2] at h2 <;> simp [isTransient] at h2 <;>
      cases ht3 : t 3 <;> rw [ht3] at h3 <;> simp [isTransient] at h3 <;>
      simp [publishEvent, publishLoop, attemptOnce, ht1, ht2, ht3, PubExc.retryable]
  · cases ht1 : t 1 <;> rw [ht1] at h1 <;> simp [isTransient] at h1 <;>
      cases ht2 : t 2 <;> rw [ht2] at h2 <;> simp [isTransient] at h2 <;>
      cases ht3 : t 3 <;> rw [ht3] at h3 <;> simp [isTransient] at h3 <;>
      simp [publishEvent, publishLoop, attemptOnce, ht1, ht2, ht3, PubExc.retryable,
        hw1, hw2]
  · cases ht1 : t 1 <;> rw [ht1] at h1 <;> simp [isTransient] at h1 <;>
      cases ht2 : t 2 <;> rw [ht2] at h2 <;> simp [isTransient] at h2 <;>
      cases ht3 : t 3 <;> rw [ht3] at h3 <;> simp [isTransient] at h3 <;>
      exact ⟨_, rfl, by
        simp [publishEvent, publishLoop, attemptOnce, ht1, ht2, ht3, PubExc.retryable]⟩
  · intro t' c ht'
    constructor <;>
      simp [publishEvent, publishLoop, attemptOnce, ht', PubExc.retryable]

/-- Always failing transport for the C3 witness. -/
def alwaysTimeoutTransport : Nat → TransportResult := fun _ => .timeoutErr

/-- Witness for the amended C3 at a concrete always-failing transport. -/
theorem always_failing_transport_attempts_witness :
    (∀ i, isTransient (alwaysTimeoutTransport i) = true) ∧
    ((publishEvent true "reminder-events" sampleEvent alwaysTimeoutTransport).invocations = 3 ∧
     (publishEvent true "reminder-events" sampleEvent alwaysTimeoutTransport).waits = [1, 2] ∧
     (∃ last, attemptOnce (alwaysTimeoutTransport 3) = .error last ∧
       (publishEvent true "reminder-events" sampleEvent alwaysTimeoutTransport).result =
         .error (.retryError last)) ∧
     (∀ (t' : Nat → TransportResult) (c : Nat), t' 1 = TransportResult.httpStatus c →
       (publishEvent true "reminder-events" sampleEvent t').invocations = 1 ∧
       (publishEvent true "reminder-events" sampleEvent t').result =
         .error (.raised (.eventPublisherError c)))) :=
  ⟨fun _ => rfl,
   always_failing_transport_attempts "reminder-events" sampleEvent
     alwaysTimeoutTransport (fun _ => rfl)⟩

/-! ### C8: topic resolution -/

theorem isPrefixOf_dot_iff :
    ∀ (p l : List Char), (∀ c ∈ p, c ≠ '.') → '.' ∈ l →
      (List.isPrefixOf (p ++ ['.']) l = true ↔
        l.takeWhile (fun c => decide (c ≠ '.')) = p) := by
  intro p
  induction p with
  | nil =>
    intro l hp hl
    cases l with
    | nil => cases hl
    | cons c l' =>
      by_cases hc : c = '.'
      · subst hc
        simp [List.isPrefixOf, List.takeWhile]
      · simp [List.isPrefixOf, List.takeWhile, hc, Ne.symm hc]
  | cons a p' ih =>
    intro l hp hl
    have ha : a ≠ '.' := hp a (List.mem_cons_self a p')
    cases l with
    | nil => cases hl
    | cons c l' =>
      by_cases hc : c = '.'
      · subst hc
        simp [List.isPrefixOf, List.takeWhile, ha]
      · have hl' : '.' ∈ l' := by
          rcases List.mem_cons.mp hl with h | h
          · exact absurd h.symm hc
          · exact h
        have hih := ih l' (fun x hx => hp x (List.mem_cons_of_mem a hx)) hl'
        have htw : List.takeWhile (fun x => decide (x ≠ '.')) (c :: l') =
            c :: List.takeWhile (fun x => decide (x ≠ '.')) l' := by
          simp [List.takeWhile, hc]
        have hpre : List.isPrefixOf ((a :: p') ++ ['.']) (c :: l') =
            ((a == c) && List.isPrefixOf (p' ++ ['.']) l') := rfl
        rw [hpre, htw, Bool.and_eq_true, beq_iff_eq, hih]
        constructor
        · rintro ⟨rfl, h2⟩
          rw [h2]
        · intro hx
          rw [List.cons.injEq] at hx
          exact ⟨hx.1.symm, hx.2⟩

/-- On every event type containing a dot, the startswith-based topic
routing of _get_topic_for_event_type agrees with the specification reading
keyed on the prefix before the first dot. -/
theorem getTopic_eq_specTopic (t : String) (h : '.' ∈ t.data) :
    getTopicForEventType t = specTopicOfType t := by
  have i1 := isPrefixOf_dot_iff ['t', 'a', 's', 'k'] t.data (by decide) h
  have i2 := isPrefixOf_dot_iff ['r', 'e', 'm', 'i', 'n', 'd', 'e', 'r'] t.data
    (by decide) h
  have i3 := isPrefixOf_dot_iff
    ['n', 'o', 't', 'i', 'f', 'i', 'c', 'a', 't', 'i', 'o', 'n'] t.data (by decide) h
  simp only [List.cons_append, List.nil_append] at i1 i2 i3
  simp only [getTopicForEventType, specTopicOfType, strStartsWith]
  by_cases hT : t.data.takeWhile (fun c => decide (c ≠ '.')) = ['t', 'a', 's', 'k']
  · rw [if_pos (i1.mpr hT), if_pos hT]
  · rw [if_neg (fun hb => hT (i1.mp hb)), if_neg hT]
    by_cases hR : t.data.takeWhile (fun c => decide (c ≠ '.')) =
        ['r', 'e', 'm', 'i', 'n', 'd', 'e', 'r']
    · rw [if_pos (i2.mpr hR), if_pos hR]
    · rw [if_neg (fun hb => hR (i2.mp hb)), if_neg hR]
      by_cases hN : t.data.takeWhile (fun c => decide (c ≠ '.')) =
          ['n', 'o', 't', 'i', 'f', 'i', 'c', 'a', 't', 'i', 'o', 'n']
      · rw [if_pos (i3.mpr hN), if_pos hN]
      · rw [if_neg (fun hb => hN (i3.mp hb)), if_neg hN]

/-- Claim C8: with no explicit topic, the dotted prefix of the envelope
type determines the topic exactly as the specification words it on every
type containing a dot; reminder.fired routes to reminder-events, the
unknown prefix of bogus.x falls back to task-events, publish with an
omitted topic delegates to this resolution, and resolution is total: it
always answers one of the three topics, never an error. -/
theorem topic_resolution_matches_spec (t : String) (h : '.' ∈ t.data) :
    getTopicForEventType t = specTopicOfType t ∧
    getTopicForEventType "reminder.fired" = REMINDER_EVENTS_TOPIC ∧
    getTopicForEventType "bogus.x" = TASK_EVENTS_TOPIC ∧
    (∀ (enabled : Bool) (e : CloudEvent) (tr : Nat → TransportResult),
      publishTop enabled e none tr =
        publishEvent enabled (getTopicForEventType e.type) e tr) ∧
    (∀ ty : String, getTopicForEventType ty = TASK_EVENTS_TOPIC ∨
       getTopicForEventType ty = REMINDER_EVENTS_TOPIC ∨
       getTopicForEventType ty = NOTIFICATION_EVENTS_TOPIC) := by
  refine ⟨getTopic_eq_specTopic t h, by decide, by decide, fun _ _ _ => rfl, ?_⟩
  intro ty
  unfold getTopicForEventType
  by_cases h1 : strStartsWith ty "task." = true
  · simp [h1]
  · by_cases h2 : strStartsWith ty "reminder." = true
    · simp [h1, h2]
    · by_cases h3 : strStartsWith ty "notification." = true
      · simp [h1, h2, h3]
      · simp [h1, h2, h3]

/-- Witness for C8 at the concrete type reminder.fired. -/
theorem topic_resolution_matches_spec_witness :
    ('.' ∈ "reminder.fired".data) ∧
    (getTopicForEventType "reminder.fired" = specTopicOfType "reminder.fired" ∧
     getTopicForEventType "reminder.fired" = REMINDER_EVENTS_TOPIC ∧
     getTopicForEventType "bogus.x" = TASK_EVENTS_TOPIC ∧
     (∀ (enabled : Bool) (e : CloudEvent) (tr : Nat → TransportResult),
       publishTop enabled e none tr =
         publishEvent enabled (getTopicForEventType e.type) e tr) ∧
     (∀ ty : String, getTopicForEventType ty = TASK_EVENTS_TOPIC ∨
        getTopicForEventType ty = REMINDER_EVENTS_TOPIC ∨
        getTopicForEventType ty = NOTIFICATION_EVENTS_TOPIC)) :=
  ⟨by decide, topic_resolution_matches_spec "reminder.fired" (by decide)⟩

/-! ### C9: envelope identity across retries -/

theorem publishLoop_succ_retry (topic : String) (e : CloudEvent)
    (tr : Nat → TransportResult) (attempt n : Nat) (waits : List Nat)
    (reqs : List PublishRequest) (ex : PubExc)
    (hA : attemptOnce (tr attempt) = .error ex) (hr : ex.retryable = true) :
    publishLoop topic e tr attempt (n + 1) waits reqs =
      publishLoop topic e tr (attempt + 1) n (waits ++ [waitExp attempt])
        (reqs ++ [mkRequest topic e]) := by
  conv_lhs => unfold publishLoop
  rw [hA]
  simp [hr]

theorem mem_publishLoop_requests (topic : String) (e : CloudEvent)
    (tr : Nat → TransportResult) :
    ∀ (fuel attempt : Nat) (waits : List Nat) (reqs : List PublishRequest)
      (req : PublishRequest),
      req ∈ (publishLoop topic e tr attempt fuel waits reqs).requests →
      req ∈ reqs ∨ req = mkRequest topic e := by
  intro fuel
  induction fuel with
  | zero =>
    intro attempt waits reqs req h
    rcases hA : attemptOnce (tr attempt) with ex | b
    · by_cases hr : ex.retryable = true <;>
        simp [publishLoop, hA, hr] at h <;> exact h
    · simp [publishLoop, hA] at h
      exact h
  | succ n ih =>
    intro attempt waits reqs req h
    rcases hA : attemptOnce (tr attempt) with ex | b
    · by_cases hr : ex.retryable = true
      · rw [publishLoop_succ_retry topic e tr attempt n waits reqs ex hA hr] at h
        rcases ih (attempt + 1) (waits ++ [waitExp attempt])
            (reqs ++ [mkRequest topic e]) req h with h' | h'
        · rcases List.mem_append.mp h' with h'' | h''
          · exact Or.inl h''
          · exact Or.inr (List.mem_singleton.mp h'')
        · exact Or.inr h'
      · simp [publishLoop, hA, hr] at h
        exact h
    · simp [publishLoop, hA] at h
      exact h

/-- Claim C9: id and timestamp of an envelope are fixed at construction
(auto-generated when absent, taken verbatim when supplied), and every
transport attempt of a single publish call sends the same request: the
serialized body carries the same id and timestamp and the metadata headers
mirror the same id, source, type and spec-version of the envelope. -/
theorem envelope_fixed_across_retries (genId genTime : Nat) (src ty : String)
    (subj : Option String) (d : TaskReminderFiredData) (topic : String)
    (tr : Nat → TransportResult) :
    (CloudEvent.make genId genTime none src ty subj none d).id = genId ∧
    (CloudEvent.make genId genTime none src ty subj none d).time = genTime ∧
    (∀ (suppliedId suppliedTime : Nat),
      (CloudEvent.make genId genTime (some suppliedId) src ty subj
        (some suppliedTime) d).id = suppliedId ∧
      (CloudEvent.make genId genTime (some suppliedId) src ty subj
        (some suppliedTime) d).time = suppliedTime) ∧
    (∀ (e : CloudEvent) (req : PublishRequest),
      req ∈ (publishEvent true topic e tr).requests →
      req = mkRequest topic e ∧
      req.body.id = e.id ∧ req.body.time = e.time ∧
      req.ceId = e.id ∧ req.ceSource = e.source ∧
      req.ceType = e.type ∧ req.ceSpecversion = e.specversion) := by
  refine ⟨rfl, rfl, fun _ _ => ⟨rfl, rfl⟩, ?_⟩
  intro e req hreq
  have hmem : req ∈ ([] : List PublishRequest) ∨ req = mkRequest topic e := by
    apply mem_publishLoop_requests topic e tr 2 1 [] [] req
    simpa [publishEvent] using hreq
  rcases hmem with h | h
  · cases h
  · subst h
    exact ⟨rfl, rfl, rfl, rfl, rfl, rfl, rfl⟩

/-- Witness for C9 at concrete construction inputs and transport. -/
theorem envelope_fixed_across_retries_witness :
    (CloudEvent.make 7 100 none "/workers/reminder-worker" "reminder.fired"
      (some "reminder/1") none sampleData).id = 7 ∧
    (CloudEvent.make 7 100 none "/workers/reminder-worker" "reminder.fired"
      (some "reminder/1") none sampleData).time = 100 ∧
    (∀ (suppliedId suppliedTime : Nat),
      (CloudEvent.make 7 100 (some suppliedId) "/workers/reminder-worker"
        "reminder.fired" (some "reminder/1") (some suppliedTime) sampleData).id =
        suppliedId ∧
      (CloudEvent.make 7 100 (some suppliedId) "/workers/reminder-worker"
        "reminder.fired" (some "reminder/1") (some suppliedTime) sampleData).time =
        suppliedTime) ∧
    (∀ (e : CloudEvent) (req : PublishRequest),
      req ∈ (publishEvent true "reminder-events" e alwaysTimeoutTransport).requests →
      req = mkRequest "reminder-events" e ∧
      req.body.id = e.id ∧ req.body.time = e.time ∧
      req.ceId = e.id ∧ req.ceSource = e.source ∧
      req.ceType = e.type ∧ req.ceSpecversion = e.specversion) :=
  envelope_fixed_across_retries 7 100 "/workers/reminder-worker" "reminder.fired"
    (some "reminder/1") sampleData "reminder-events" alwaysTimeoutTransport

/-! ### Concrete worker fixtures for witnesses -/

/-- A small reminders table: one due pending row, one future pending row,
one fired row, one cancelled row. Ids are distinct. -/
def dbW : List Reminder :=
  [ { id := 1, task_id := 10, user_id := 20, scheduled_time := 5,
      status := RStatus.pending, fired_at := none, notification_channels := ["email"] },
    { id := 2, task_id := 11, user_id := 21, scheduled_time := 50,
      status := RStatus.pending, fired_at := none, notification_channels := ["push"] },
    { id := 3, task_id := 12, user_id := 22, scheduled_time := 3,
      status := RStatus.fired, fired_at := some 3, notification_channels := ["email"] },
    { id := 4, task_id := 13, user_id := 23, scheduled_time := 7,
      status := RStatus.cancelled, fired_at := none, notification_channels := ["sms"] } ]

/-- Publisher outcome that always fails with retry exhaustion. -/
def pubFailW : Nat → Except FinalErr Bool := fun _ => .error (.retryError .requestError)

/-- Publisher outcome that always succeeds. -/
def pubOkW : Nat → Except FinalErr Bool := fun _ => .ok true

/-- Commit oracle where every per-row commit succeeds. -/
def commitAllW : Nat → Bool := fun _ => true

/-- Commit oracle where the commit for reminder id 1 fails. -/
def commitFailOneW : Nat → Bool := fun i => decide (i ≠ 1)

/-! ### C1: selected reminders are marked fired regardless of publish -/

/-- Claim C1: every reminder selected by a cycle (pending, due, within the
batch limit) ends the cycle with status fired and a non-null fired-at time
when its commit succeeds; the whole cycle result is independent of the
publish outcomes, and the per-reminder publish step never lets an
exception escape, so a publish failure, including retry exhaustion, can
neither prevent nor reverse the transition. -/
theorem cycle_marks_selected_fired (db : List Reminder) (now batch : Nat)
    (pub pub2 : Nat → Except FinalErr Bool) (commitOk : Nat → Bool)
    (hc : ∀ i, commitOk i = true) :
    (∀ r ∈ selectDue db now batch,
      ∀ r' ∈ (runCycle db now batch pub commitOk).db, r'.id = r.id →
        r'.status = RStatus.fired ∧ r'.fired_at = some now) ∧
    runCycle db now batch pub commitOk = runCycle db now batch pub2 commitOk ∧
    (∀ res : Except FinalErr Bool, publishReminderFiredE res = .ok ()) := by
  have hfilter : (selectDue db now batch).filter (fun r => commitOk r.id) =
      selectDue db now batch :=
    List.filter_eq_self.mpr (fun a _ => hc a.id)
  refine ⟨?_, ?_, publishReminderFiredE_ok⟩
  · intro r hr r' hr' hid
    have hrid : r.id ∈ firedIds db now batch commitOk := by
      unfold firedIds
      rw [hfilter]
      exact List.mem_map_of_mem (fun x => x.id) hr
    rw [runCycle_eq] at hr'
    obtain ⟨x, hx, hxr⟩ := List.mem_map.mp hr'
    by_cases hcx : x.id ∈ firedIds db now batch commitOk
    · rw [if_pos hcx] at hxr
      rw [← hxr]
      exact ⟨rfl, rfl⟩
    · rw [if_neg hcx] at hxr
      rw [← hxr] at hid
      rw [hid] at hcx
      exact absurd hrid hcx
  · rw [runCycle_eq, runCycle_eq]

/-- Witness for C1: the due pending reminder of dbW is fired even though
every publish fails with retry exhaustion. -/
theorem cycle_marks_selected_fired_witness :
    (∀ i, commitAllW i = true) ∧
    ((∀ r ∈ selectDue dbW 10 100,
       ∀ r' ∈ (runCycle dbW 10 100 pubFailW commitAllW).db, r'.id = r.id →
         r'.status = RStatus.fired ∧ r'.fired_at = some 10) ∧
     runCycle dbW 10 100 pubFailW commitAllW =
       runCycle dbW 10 100 pubOkW commitAllW ∧
     (∀ res : Except FinalErr Bool, publishReminderFiredE res = .ok ())) :=
  ⟨fun _ => rfl,
   cycle_marks_selected_fired dbW 10 100 pubFailW pubOkW commitAllW (fun _ => rfl)⟩

/-! ### C10: cycle counters -/

/-- Claim C10: process_due_reminders returns exactly the number of selected
reminders whose commit succeeded; the failed counter counts exactly the
selected reminders whose commit failed, each of which is rolled back and
left in the table unchanged (hence still pending); and the publish outcome
influences neither counter. -/
theorem cycle_counts_commits (db : List Reminder) (now batch : Nat)
    (pub : Nat → Except FinalErr Bool) (commitOk : Nat → Bool) :
    (runCycle db now batch pub commitOk).processed =
      ((selectDue db now batch).filter (fun r => commitOk r.id)).length ∧
    (runCycle db now batch pub commitOk).failed =
      ((selectDue db now batch).filter (fun r => !commitOk r.id)).length ∧
    (∀ r ∈ db, commitOk r.id = false →
      r ∈ (runCycle db now batch pub commitOk).db) ∧
    (∀ pub2 : Nat → Except FinalErr Bool,
      (runCycle db now batch pub2 commitOk).processed =
        (runCycle db now batch pub commitOk).processed ∧
      (runCycle db now batch pub2 commitOk).failed =
        (runCycle db now batch pub commitOk).failed) := by
  refine ⟨by rw [runCycle_eq], by rw [runCycle_eq], ?_, ?_⟩
  · intro r hr hco
    have hnot : r.id ∉ firedIds db now batch commitOk := by
      intro hmem
      obtain ⟨x, hxSel, hxi, hxc, hxd⟩ := mem_firedIds hmem
      rw [hco] at hxc
      exact Bool.false_ne_true hxc
    rw [runCycle_eq]
    have heq : (fun x => if x.id ∈ firedIds db now batch commitOk then fireR x now
        else x) r = r := if_neg hnot
    have hmem := List.mem_map_of_mem
      (fun x => if x.id ∈ firedIds db now batch commitOk then fireR x now else x) hr
    rw [heq] at hmem
    exact hmem
  · intro pub2
    rw [runCycle_eq, runCycle_eq]
    exact ⟨rfl, rfl⟩

/-- Witness for C10: in dbW with the commit for id 1 failing, the cycle
reports zero processed, one failed, and the failed row stays in the table
unchanged. -/
theorem cycle_counts_commits_witness :
    (runCycle dbW 10 100 pubFailW commitFailOneW).processed =
      ((selectDue dbW 10 100).filter (fun r => commitFailOneW r.id)).length ∧
    (runCycle dbW 10 100 pubFailW commitFailOneW).failed =
      ((selectDue dbW 10 100).filter (fun r => !commitFailOneW r.id)).length ∧
    (∀ r ∈ dbW, commitFailOneW r.id = false →
      r ∈ (runCycle dbW 10 100 pubFailW commitFailOneW).db) ∧
    (∀ pub2 : Nat → Except FinalErr Bool,
      (runCycle dbW 10 100 pub2 commitFailOneW).processed =
        (runCycle dbW 10 100 pubFailW commitFailOneW).processed ∧
      (runCycle dbW 10 100 pub2 commitFailOneW).failed =
        (runCycle dbW 10 100 pubFailW commitFailOneW).failed) :=
  cycle_counts_commits dbW 10 100 pubFailW commitFailOneW

/-! ### C5: due-reminder query characterization -/

/-- Backlog of 150 due pending reminders with ascending scheduled times. -/
def db150 : List Reminder :=
  (List.range 150).map (fun i =>
    { id := i, task_id := 0, user_id := 0, scheduled_time := i,
      status := RStatus.pending, fired_at := none,
      notification_channels := ["email"] })

set_option maxHeartbeats 4000000 in
set_option maxRecDepth 100000 in
/-- Claim C5: the cycle query selects only reminders that are pending and
due, returns them ordered ascending by scheduled_time, limited to the batch
size, and the selected ones are scheduled no later than any due reminder
left out; consequently on a backlog of 150 due reminders with batch size
100 a cycle processes exactly 100, the earliest-scheduled ones, leaving 50
due for the next cycle. -/
theorem due_query_characterization (db : List Reminder) (now batch : Nat) :
    (∀ r ∈ selectDue db now batch,
      r.status = RStatus.pending ∧ r.scheduled_time ≤ now) ∧
    List.Sorted remLe (selectDue db now batch) ∧
    (selectDue db now batch).length = min batch (db.filter (isDue now)).length ∧
    (∀ r ∈ selectDue db now batch,
      ∀ q ∈ (List.insertionSort remLe (db.filter (isDue now))).drop batch,
        r.scheduled_time ≤ q.scheduled_time) ∧
    ((runCycle db150 1000 100 pubOkW commitAllW).processed = 100 ∧
     (List.filter (isDue 1000) (runCycle db150 1000 100 pubOkW commitAllW).db).length
       = 50 ∧
     (∀ r ∈ (runCycle db150 1000 100 pubOkW commitAllW).db,
       r.scheduled_time < 100 → r.status = RStatus.fired)) := by
  refine ⟨?_, ?_, ?_, ?_, by decide, by decide, by decide⟩
  · intro r hr
    exact (isDue_iff now r).mp (mem_of_mem_selectDue hr).2
  · exact List.Pairwise.sublist (List.take_sublist batch _)
      (List.sorted_insertionSort remLe _)
  · unfold selectDue
    rw [List.length_take, List.length_insertionSort]
  · intro r hr q hq
    have hs := List.sorted_insertionSort remLe (db.filter (isDue now))
    rw [← List.take_append_drop batch
      (List.insertionSort remLe (db.filter (isDue now)))] at hs
    exact (List.pairwise_append.mp hs).2.2 r hr q hq

/-- Witness for C5 at the small concrete table with batch size 1. -/
theorem due_query_characterization_witness :
    (∀ r ∈ selectDue dbW 10 1,
      r.status = RStatus.pending ∧ r.scheduled_time ≤ 10) ∧
    List.Sorted remLe (selectDue dbW 10 1) ∧
    (selectDue dbW 10 1).length = min 1 (dbW.filter (isDue 10)).length ∧
    (∀ r ∈ selectDue dbW 10 1,
      ∀ q ∈ (List.insertionSort remLe (dbW.filter (isDue 10))).drop 1,
        r.scheduled_time ≤ q.scheduled_time) ∧
    ((runCycle db150 1000 100 pubOkW commitAllW).processed = 100 ∧
     (List.filter (isDue 1000) (runCycle db150 1000 100 pubOkW commitAllW).db).length
       = 50 ∧
     (∀ r ∈ (runCycle db150 1000 100 pubOkW commitAllW).db,
       r.scheduled_time < 100 → r.status = RStatus.fired)) :=
  due_query_characterization dbW 10 1

/-! ### C6: frame properties of a cycle -/

theorem isDue_false_of_not_pending {r : Reminder}
    (hterm : r.status ≠ RStatus.pending) (now : Nat) : isDue now r = false := by
  unfold isDue
  rw [decide_eq_false hterm]
  exact Bool.false_and _

theorem terminal_not_selected {r : Reminder} (hterm : r.status ≠ RStatus.pending)
    (db' : List Reminder) (now' batch' : Nat) : r ∉ selectDue db' now' batch' := by
  intro hmem
  exact hterm ((isDue_iff now' r).mp (mem_of_mem_selectDue hmem).2).1

/-- A terminal reminder survives every iteration of the worker loop
unchanged, and the id column of the table is invariant. -/
theorem terminal_wstates (env : WEnv) (db0 : List Reminder) (r : Reminder)
    (hnd : (db0.map (fun x => x.id)).Nodup) (hr : r ∈ db0)
    (hterm : r.status ≠ RStatus.pending) :
    ∀ k, r ∈ (wstates env db0 k).db ∧
      ((wstates env db0 k).db.map (fun x => x.id)) = db0.map (fun x => x.id) := by
  intro k
  induction k with
  | zero => exact ⟨hr, rfl⟩
  | succ n ih =>
    obtain ⟨hmem, hids⟩ := ih
    have hnd' : ((wstates env db0 n).db.map (fun x => x.id)).Nodup := by
      rw [hids]; exact hnd
    show r ∈ (loopIter env n (wstates env db0 n)).db ∧
      ((loopIter env n (wstates env db0 n)).db.map (fun x => x.id)) = _
    by_cases hrun : (wstates env db0 n).running = true
    · by_cases hq : env.queryOk n = true
      · simp only [loopIter, hrun, hq, if_true]
        constructor
        · exact (notDue_untouched hnd' hmem (isDue_false_of_not_pending hterm _)).1
        · rw [runCycle_ids, hids]
      · simp only [loopIter, hrun, if_true]
        rw [if_neg hq]
        exact ⟨hmem, hids⟩
    · simp only [loopIter, if_neg hrun]
      exact ⟨hmem, hids⟩

set_option maxHeartbeats 1000000 in
/-- Claim C6: a cycle leaves every reminder not selected by the due query
untouched: with unique ids, a reminder scheduled in the future keeps all
its fields (no other row takes over its id), terminal fired or cancelled
reminders are never selected by the due query, and across arbitrarily many
worker iterations a terminal reminder stays in the table unchanged and is
never re-selected. -/
theorem cycle_frame_properties (env : WEnv) (db : List Reminder) (now batch : Nat)
    (pub : Nat → Except FinalErr Bool) (commitOk : Nat → Bool)
    (hnd : (db.map (fun x => x.id)).Nodup) :
    (∀ r ∈ db, now < r.scheduled_time →
      r ∈ (runCycle db now batch pub commitOk).db ∧
      ∀ r' ∈ (runCycle db now batch pub commitOk).db, r'.id = r.id → r' = r) ∧
    (∀ r : Reminder, r.status = RStatus.fired ∨ r.status = RStatus.cancelled →
      r ∉ selectDue db now batch) ∧
    (∀ r ∈ db, r.status = RStatus.fired ∨ r.status = RStatus.cancelled →
      ∀ k : Nat, r ∈ (wstates env db k).db ∧
        r ∉ selectDue (wstates env db k).db (env.nowAt k) env.batch) := by
  refine ⟨?_, ?_, ?_⟩
  · intro r hr hfut
    have hdue : isDue now r = false := by
      unfold isDue
      rw [decide_eq_false (Nat.not_le.mpr hfut)]
      exact Bool.and_false _
    exact notDue_untouched hnd hr hdue
  · intro r hterm
    have hne : r.status ≠ RStatus.pending := by
      rcases hterm with h | h <;> rw [h] <;> decide
    exact terminal_not_selected hne db now batch
  · intro r hr hterm k
    have hne : r.status ≠ RStatus.pending := by
      rcases hterm with h | h <;> rw [h] <;> decide
    exact ⟨(terminal_wstates env db r hnd hr hne k).1,
      terminal_not_selected hne _ _ _⟩

/-- Concrete worker environment for witnesses: stop signalled during cycle
2, query failing in cycle 0, clock advancing each cycle. -/
def envW : WEnv :=
  { batch := 100
    stop := fun k => decide (k = 2)
    queryOk := fun k => !decide (k = 0)
    nowAt := fun k => 10 + k
    pub := fun _ _ => .error (.retryError .requestError)
    commitOk := fun _ _ => true }

/-- Witness for C6 at the concrete table dbW and environment envW. -/
theorem cycle_frame_properties_witness :
    ((dbW.map (fun x => x.id)).Nodup) ∧
    ((∀ r ∈ dbW, 10 < r.scheduled_time →
       r ∈ (runCycle dbW 10 100 pubFailW commitAllW).db ∧
       ∀ r' ∈ (runCycle dbW 10 100 pubFailW commitAllW).db, r'.id = r.id → r' = r) ∧
     (∀ r : Reminder, r.status = RStatus.fired ∨ r.status = RStatus.cancelled →
       r ∉ selectDue dbW 10 100) ∧
     (∀ r ∈ dbW, r.status = RStatus.fired ∨ r.status = RStatus.cancelled →
       ∀ k : Nat, r ∈ (wstates envW dbW k).db ∧
         r ∉ selectDue (wstates envW dbW k).db (envW.nowAt k) envW.batch)) :=
  ⟨by decide,
   cycle_frame_properties envW dbW 10 100 pubFailW commitAllW (by decide)⟩

/-! ### C7: the run loop exits only on an explicit stop -/

/-- Claim C7: the worker loop never terminates because of an error: if the
running flag is down after n iterations, some earlier iteration carried an
explicit stop request; a whole-cycle query failure leaves the table of that
iteration untouched while the loop proceeds; and with no stop request the
loop is still running after any number of iterations, whatever the query,
publish and commit failures were. -/
theorem worker_loop_exit_only_by_stop (env : WEnv) (db : List Reminder) (n : Nat) :
    ((wstates env db n).running = false → ∃ k, k < n ∧ env.stop k = true) ∧
    (∀ k, env.queryOk k = false →
      (wstates env db (k + 1)).db = (wstates env db k).db) ∧
    ((∀ k, k < n → env.stop k = false) → (wstates env db n).running = true) := by
  refine ⟨?_, ?_, ?_⟩
  · induction n with
    | zero =>
      intro h
      simp [wstates] at h
    | succ m ih =>
      intro h
      by_cases hrun : (wstates env db m).running = true
      · have hstep : (wstates env db (m + 1)).running = !env.stop m := by
          show (loopIter env m (wstates env db m)).running = _
          simp [loopIter, hrun]
        rw [hstep] at h
        have hstop : env.stop m = true := by
          cases hs : env.stop m
          · rw [hs] at h
            cases h
          · rfl
        exact ⟨m, Nat.lt_succ_self m, hstop⟩
      · have hfalse : (wstates env db m).running = false := by
          cases hb : (wstates env db m).running
          · rfl
          · exact absurd hb hrun
        obtain ⟨k, hk, hs⟩ := ih hfalse
        exact ⟨k, Nat.lt_succ_of_lt hk, hs⟩
  · intro k hq
    show (loopIter env k (wstates env db k)).db = _
    by_cases hrun : (wstates env db k).running = true
    · simp [loopIter, hrun, hq]
    · simp [loopIter, hrun]
  · induction n with
    | zero =>
      intro _
      rfl
    | succ m ih =>
      intro hall
      have hrun : (wstates env db m).running = true :=
        ih (fun k hk => hall k (Nat.lt_succ_of_lt hk))
      show (loopIter env m (wstates env db m)).running = true
      simp [loopIter, hrun, hall m (Nat.lt_succ_self m)]

/-- Witness for C7 at the concrete environment envW after 5 iterations. -/
theorem worker_loop_exit_only_by_stop_witness :
    ((wstates envW dbW 5).running = false → ∃ k, k < 5 ∧ envW.stop k = true) ∧
    (∀ k, envW.queryOk k = false →
      (wstates envW dbW (k + 1)).db = (wstates envW dbW k).db) ∧
    ((∀ k, k < 5 → envW.stop k = false) → (wstates envW dbW 5).running = true) :=
  worker_loop_exit_only_by_stop envW dbW 5

end TodoEvents
